import Mathlib

/-!
Verification development for the candy-solitaire rules engine.

The definitions below are a shallow embedding of the TypeScript sources
(`src/game.ts`, the module imported by `src/App.tsx` as `./game`, and the
engine functions defined inside `src/App.tsx`).  Machine integers are
modelled as `Nat` reduced modulo `2^32` exactly where JavaScript coerces
to 32-bit integers; every floating-point computation performed by the
source on the values that actually occur (RNG outputs divided by `2^32`,
combo multipliers in halves, score products below `2^38`) is exact in
IEEE-754 doubles, so it is modelled with exact arithmetic (`Nat`, `ℚ`).
-/

namespace Candy

/-! ## Data model (`src/game.ts`) -/

/-- The four suits `'H' | 'D' | 'C' | 'S'`. -/
inductive Suit where
  | H | D | C | S
deriving DecidableEq, Repr, Inhabited

/-- A playing card.  The source also stores `id : string`, but that field is
the pure function `` `${suit}${rank}` `` of the other two fields (injective on
well-formed cards), so it is omitted: card equality and multisets are
unaffected. -/
structure Card where
  rank : Nat
  suit : Suit
deriving DecidableEq, Repr, Inhabited

/-- A tableau slot (`Slot` in the source): `{id, row, x, card}`. -/
structure Slot where
  id : Nat
  row : Nat
  x : Nat
  card : Option Card
deriving DecidableEq, Repr, Inhabited

/-- The three powerup kinds. -/
inductive Powerup where
  | wild | bomb | rainbow
deriving DecidableEq, Repr, Inhabited

/-- `Inventory = Record<Powerup, number>`; counts are non-negative numbers. -/
structure Inventory where
  wild : Nat
  bomb : Nat
  rainbow : Nat
deriving DecidableEq, Repr, Inhabited

/-- Look up the count of one powerup kind, `inv[p]`. -/
def Inventory.get (inv : Inventory) : Powerup → Nat
  | .wild => inv.wild
  | .bomb => inv.bomb
  | .rainbow => inv.rainbow

/-- `inv[p] += 1`. -/
def Inventory.bump (inv : Inventory) : Powerup → Inventory
  | .wild => { inv with wild := inv.wild + 1 }
  | .bomb => { inv with bomb := inv.bomb + 1 }
  | .rainbow => { inv with rainbow := inv.rainbow + 1 }

/-- `inv[p] = Math.max(0, inv[p] - 1)`.  On `Nat`, truncated subtraction
is exactly `max 0 (x - 1)`. -/
def Inventory.spend (inv : Inventory) : Powerup → Inventory
  | .wild => { inv with wild := inv.wild - 1 }
  | .bomb => { inv with bomb := inv.bomb - 1 }
  | .rainbow => { inv with rainbow := inv.rainbow - 1 }

/-- `GameStatus = 'playing' | 'won' | 'lost'`. -/
inductive GameStatus where
  | playing | won | lost
deriving DecidableEq, Repr, Inhabited

/-- The single source of truth, `GameState` in the source.  Piles are
JavaScript arrays whose *last* element is the top (`push`/`pop` operate at
the end), and that convention is kept here. -/
structure GameState where
  seed : String
  tableau : List Slot
  stock : List Card
  waste : List Card
  hold : Option Card
  score : Int
  combo : Nat
  powerups : Inventory
  activePowerup : Option Powerup
  powerupCycle : Nat
  wrapEnabled : Bool
  status : GameStatus
  bonusAwarded : Bool
deriving DecidableEq, Repr, Inhabited

/-! ## Constants -/

/-- `POWERUP_ORDER = ['wild', 'bomb', 'rainbow']`. -/
def POWERUP_ORDER : List Powerup := [.wild, .bomb, .rainbow]

/-- `BASE_POINTS = 100`. -/
def BASE_POINTS : Nat := 100

/-- `STOCK_BONUS = 200`. -/
def STOCK_BONUS : Nat := 200

/-- The static row description `ROWS`: pairs of row index and x-coordinates. -/
def ROWS : List (Nat × List Nat) :=
  [(0, [4, 10, 16]),
   (1, [3, 5, 9, 11, 15, 17]),
   (2, [2, 4, 6, 8, 10, 12, 14, 16, 18]),
   (3, [1, 3, 5, 7, 9, 11, 13, 15, 17, 19])]

/-! ## Layout graph (`buildLayout`, `buildParents`, `buildAdjacency`) -/

/-- One row of `buildLayout`: slots get consecutive ids. -/
def buildRow (id row : Nat) : List Nat → List Slot
  | [] => []
  | x :: xs => ⟨id, row, x, none⟩ :: buildRow (id + 1) row xs

/-- The outer loop of `buildLayout`, threading the id counter. -/
def buildLayoutAux (id : Nat) : List (Nat × List Nat) → List Slot
  | [] => []
  | (row, xs) :: rest => buildRow id row xs ++ buildLayoutAux (id + xs.length) rest

/-- `LAYOUT = buildLayout()`: the 28 positions, ids `0..27` in row order. -/
def LAYOUT : List Slot := buildLayoutAux 0 ROWS

/-- The `lookup` map keyed by `` `${row}:${x}` `` in `buildParents` /
`buildAdjacency`: find the id of the slot at a given row and x.  Positions
are unique per `(row, x)` pair, so `find?` returns the unique entry. -/
def slotAt (layout : List Slot) (row x : Nat) : Option Nat :=
  (layout.find? (fun s => s.row == row && s.x == x)).map (·.id)

/-- Whether slot `p` pushes `cid` into its parents list in `buildParents`:
`p` looks up the children at `(p.row + 1, p.x - 1)` and `(p.row + 1, p.x + 1)`
and registers itself with each.  (In `LAYOUT` every `x ≥ 1`, so `Nat`
subtraction matches JavaScript.) -/
def isParentOf (layout : List Slot) (p : Slot) (cid : Nat) : Bool :=
  slotAt layout (p.row + 1) (p.x - 1) == some cid ||
    slotAt layout (p.row + 1) (p.x + 1) == some cid

/-- The parents list of child id `cid`.  `buildParents` iterates the layout in
id order and each parent pushes itself, so the list is exactly the layout
slots that are parents of `cid`, in layout order. -/
def parentsOf (layout : List Slot) (cid : Nat) : List Nat :=
  (layout.filter (fun p => isParentOf layout p cid)).map (·.id)

/-- `PARENTS`, the table built once by `buildParents(LAYOUT)`, indexed by
slot id (slot `i` of `LAYOUT` has id `i`). -/
def parentsTable : List (List Nat) :=
  (List.range LAYOUT.length).map (parentsOf LAYOUT)

/-- `PARENTS[cid]` (out-of-range ids have no entry, hence no parents). -/
def PARENTS (cid : Nat) : List Nat := parentsTable.getD cid []

/-- The neighbor set of a slot in `buildAdjacency`: its parents, then the
children at `(row + 1, x ∓ 1)`, inserted into a `Set` in that order.
`List.eraseDups` keeps first occurrences, matching JavaScript `Set`
insertion order (parents and children are in different rows, so the
dedup is in fact inert). -/
def adjacencyOf (layout : List Slot) (s : Slot) : List Nat :=
  (parentsOf layout s.id ++
      (slotAt layout (s.row + 1) (s.x - 1)).toList ++
      (slotAt layout (s.row + 1) (s.x + 1)).toList).eraseDups

/-- `ADJACENCY`, the table built once by `buildAdjacency(LAYOUT, PARENTS)`,
indexed by slot id. -/
def adjacencyTable : List (List Nat) :=
  LAYOUT.map (adjacencyOf LAYOUT)

/-- `ADJACENCY[cid]`. -/
def ADJACENCY (cid : Nat) : List Nat := adjacencyTable.getD cid []

/-! ## Exposure (`isExposed`, `getExposedIds`) -/

/-- `isExposed(slot, tableau)`: the slot holds a card and no parent slot
(looked up by index in `tableau`; a missing index blocks nothing) holds a
card. -/
def isExposed (slot : Slot) (tableau : List Slot) : Bool :=
  slot.card.isSome &&
    (PARENTS slot.id).all (fun parentId =>
      match tableau[parentId]? with
      | some p => p.card.isNone
      | none => true)

/-- `getExposedIds(tableau)`: ids of exposed slots, in tableau order. -/
def getExposedIds (tableau : List Slot) : List Nat :=
  (tableau.filter (fun slot => isExposed slot tableau)).map (·.id)

/-! ## Rank adjacency (`isAdjacentRank`) -/

/-- `isAdjacentRank(a, b, wrapEnabled = true)`. -/
def isAdjacentRank (a b : Nat) (wrapEnabled : Bool := true) : Bool :=
  if ((a : Int) - b).natAbs == 1 then true
  else if !wrapEnabled then false
  else (a == 1 && b == 13) || (a == 13 && b == 1)

/-! ## Deterministic RNG (`xmur3`, `mulberry32`, `createRng`)

JavaScript 32-bit coercions are modelled on `Nat` by reducing modulo
`2^32`: signed and unsigned representatives agree modulo `2^32`, every
intermediate sum/product stays far below `2^53` (so float arithmetic on
them is exact), and all bitwise operators act on the 32-bit pattern. -/

/-- `2^32`, the JavaScript 32-bit wrap-around modulus. -/
def U32 : Nat := 4294967296

/-- `Math.imul` on the unsigned 32-bit representatives. -/
def imul (a b : Nat) : Nat := a * b % U32

/-- One iteration of the `xmur3` seeding loop:
`h = Math.imul(h ^ c, 3432918353); h = (h << 13) | (h >>> 19)` —
a multiply followed by a 32-bit rotate-left by 13. -/
def xmur3Step (h c : Nat) : Nat :=
  let h1 := imul (h ^^^ c) 3432918353
  (h1 <<< 13) % U32 ||| (h1 >>> 19)

/-- The finalization performed by the first call of the `xmur3` closure. -/
def xmur3Final (h : Nat) : Nat :=
  let h1 := imul (h ^^^ (h >>> 16)) 2246822507
  let h2 := imul (h1 ^^^ (h1 >>> 13)) 3266489909
  h2 ^^^ (h2 >>> 16)

/-- `createRng`'s seed derivation: run the `xmur3` hash over the seed's
character codes (starting from `1779033703 ^ length`) and take the first
output of the closure.  Seeds are treated as sequences of code points,
which coincides with `charCodeAt` for the ASCII seeds the program uses. -/
def xmur3 (s : String) : Nat :=
  xmur3Final ((s.data.map Char.toNat).foldl xmur3Step (1779033703 ^^^ s.length))

/-- One `mulberry32` draw from state `a`: returns the raw 32-bit output
`v` (the source returns the float `v / 2^32`) and the updated state. -/
def mulberryNext (a : Nat) : Nat × Nat :=
  let a1 := (a + 0x6d2b79f5) % U32
  let t1 := imul (a1 ^^^ (a1 >>> 15)) (a1 ||| 1)
  let t2 := (t1 ^^^ (t1 + imul (t1 ^^^ (t1 >>> 7)) (t1 ||| 61)) % U32) % U32
  (t2 ^^^ (t2 >>> 14), a1)

/-! ## Deck and shuffle (`createDeck`, `shuffle`) -/

/-- `createDeck()`: suits `H, D, C, S`, ranks 1..13 within each suit. -/
def createDeck : List Card :=
  [Suit.H, Suit.D, Suit.C, Suit.S].flatMap
    (fun suit => (List.range 13).map (fun r => ⟨r + 1, suit⟩))

/-- The in-place swap `tmp = deck[i]; deck[i] = deck[j]; deck[j] = tmp`. -/
def swapAt (l : List Card) (i j : Nat) : List Card :=
  let a := l.getD i default
  let b := l.getD j default
  (l.set i b).set j a

/-- The Fisher–Yates loop of `shuffle(deck, rng)`, with the loop counter as
fuel and the rng closure modelled as a state-transforming draw function `g`
(the source's `rng: () => number` parameter): at counter `i = k + 1`, draw
`v`, set `j = Math.floor((v / 2^32) * (i + 1))` (`v * (i + 1) < 2^38`, so
the float expression is exactly the `Nat` division below) and swap
positions `i` and `j`. -/
def shuffleGo (g : Nat → Nat × Nat) : Nat → List Card → Nat → List Card × Nat
  | 0, l, st => (l, st)
  | k + 1, l, st =>
    let p := g st
    let j := p.1 * (k + 2) / U32
    shuffleGo g k (swapAt l (k + 1) j) p.2

/-- `shuffle(deck, rng)`: the loop runs `i` from `deck.length - 1` down
to `1`. -/
def shuffle (deck : List Card) (g : Nat → Nat × Nat) (st : Nat) :
    List Card × Nat :=
  shuffleGo g (deck.length - 1) deck st

/-- The deck after `shuffle(deck, createRng(seed))` in `createGameState`. -/
def shuffledDeck (seed : String) : List Card :=
  (shuffle createDeck mulberryNext (xmur3 seed)).1

/-! ## Dealing (`createGameState`) -/

/-- The tableau construction `LAYOUT.map((pos, index) => ({...pos, card:
deck[index] ?? null}))`, written as an index-threading recursion. -/
def assignCards : List Slot → Nat → List Card → List Slot
  | [], _, _ => []
  | pos :: rest, i, deck =>
    { pos with card := deck[i]? } :: assignCards rest (i + 1) deck

/-- `createGameState(seed)`: shuffle, deal 28 cards to the tableau, the
rest to stock, then pop the stock top into waste when stock is non-empty.
The source's `if (stock.length > 0) waste.push(stock.pop())` is written
branch-free: on a non-empty remainder it leaves `dropLast` in stock and the
last card in waste, and on an empty remainder both forms leave stock `[]`
(`dropLast [] = []`) and waste `[]` (`getLast? = none`). -/
def dealFrom (seed : String) (deck : List Card) : GameState :=
  let tableau := assignCards LAYOUT 0 deck
  let stock0 := deck.drop tableau.length
  { seed := seed, tableau := tableau, stock := stock0.dropLast,
    waste := stock0.getLast?.toList, hold := none, score := 0, combo := 0,
    powerups := ⟨0, 0, 0⟩, activePowerup := none, powerupCycle := 0,
    wrapEnabled := true, status := .playing, bonusAwarded := false }

/-- `createGameState(seed)` proper: the body above applied to the shuffled
deck. -/
def createGameState (seed : String) : GameState :=
  dealFrom seed (shuffledDeck seed)

/-! ## Scoring and powerup grants (`getComboMultiplier`, `grantPowerups`) -/

/-- `getComboMultiplier(combo)`: `1` for `combo <= 0` (on `Nat`, `combo = 0`),
else `1 + Math.min(steps * 0.5, 2)` with `steps = Math.floor(combo / 3)`.
All values are multiples of `1/2`, exact in doubles, so `ℚ` is faithful. -/
def getComboMultiplier (combo : Nat) : ℚ :=
  if combo = 0 then 1
  else 1 + min ((combo / 3 : Nat) * (1 / 2 : ℚ)) 2

/-- The grant loop of `grantPowerups`, over the list of combo values
`oldCombo + 1 .. newCombo`: each multiple of 3 grants the next powerup in
`POWERUP_ORDER` and advances the cycle cursor. -/
def grantPowerupsAux : Inventory → Nat → List Nat → Inventory × Nat
  | inv, cycle, [] => (inv, cycle)
  | inv, cycle, c :: rest =>
    if c % 3 == 0 then
      grantPowerupsAux
        (inv.bump (POWERUP_ORDER.getD (cycle % POWERUP_ORDER.length) .wild))
        (cycle + 1) rest
    else grantPowerupsAux inv cycle rest

/-- `grantPowerups(oldCombo, newCombo, inventory, cycleIndex)`:
`for (combo = oldCombo + 1; combo <= newCombo; combo += 1)`. -/
def grantPowerups (oldCombo newCombo : Nat) (inv : Inventory) (cycle : Nat) :
    Inventory × Nat :=
  grantPowerupsAux inv cycle (List.range' (oldCombo + 1) (newCombo - oldCombo))

/-! ## Clear resolution (`applyClear`) -/

/-- `ClearResult = { state, clearedCount }`. -/
structure ClearResult where
  state : GameState
  clearedCount : Nat
deriving DecidableEq, Repr

/-- `applyClear(prev, clearedIds, wasteCard, powerupSpent)`.  Clears the
listed slots (membership in `clearedSet` only tests `slot.id`), pushes the
target's card onto waste, bumps combo by the cleared count, adds the rounded
score gain (`Math.round` on these exact half-integer products is Mathlib's
`round`), spends the powerup if one was used, grants combo powerups and
deactivates any selected powerup. -/
def applyClear (prev : GameState) (clearedIds : List Nat)
    (wasteCard : Option Card) (powerupSpent : Option Powerup) : ClearResult :=
  match wasteCard with
  | none => ⟨prev, 0⟩
  | some wc =>
    let nextTableau := prev.tableau.map (fun slot =>
      if clearedIds.contains slot.id then { slot with card := none } else slot)
    let clearedCount := clearedIds.length
    let nextCombo := prev.combo + clearedCount
    let scoreGain : Int :=
      round ((clearedCount : ℚ) * (BASE_POINTS : ℚ) * getComboMultiplier nextCombo)
    let nextPowerups :=
      match powerupSpent with
      | some p => prev.powerups.spend p
      | none => prev.powerups
    let g := grantPowerups prev.combo nextCombo nextPowerups prev.powerupCycle
    ⟨{ prev with
        tableau := nextTableau,
        waste := prev.waste ++ [wc],
        combo := nextCombo,
        score := prev.score + scoreGain,
        powerups := g.1,
        powerupCycle := g.2,
        activePowerup := none }, clearedCount⟩

/-! ## Terminal evaluation (`evaluateState`) -/

/-- The local `hasPowerup` of `evaluateState`: a powerup is active or the
total inventory is positive. -/
def evalHasPowerup (state : GameState) : Bool :=
  state.activePowerup.isSome ||
    decide (0 < state.powerups.wild + state.powerups.bomb + state.powerups.rainbow)

/-- The local `canPlay` of `evaluateState`: some exposed card's rank is
adjacent to the waste top (false when waste is empty).  The source binds
`exposedIds` once and reuses it; the pure expression is inlined here. -/
def evalCanPlay (state : GameState) : Bool :=
  match state.waste.getLast? with
  | some wasteTop =>
    (getExposedIds state.tableau).any (fun id =>
      match (state.tableau[id]?).bind (·.card) with
      | some card => isAdjacentRank card.rank wasteTop.rank state.wrapEnabled
      | none => false)
  | none => false

/-- `evaluateState(state)`: win check (with the once-only stock bonus),
then the empty-stock loss checks, otherwise the state unchanged. -/
def evaluateState (state : GameState) : GameState :=
  if state.status ≠ .playing then state
  else if state.tableau.all (fun slot => slot.card.isNone) then
    if !state.bonusAwarded then
      { state with
          score := state.score + (state.stock.length * STOCK_BONUS : Nat),
          status := .won,
          bonusAwarded := true }
    else { state with status := .won }
  else if state.stock.length = 0 then
    if (getExposedIds state.tableau).length = 0 then { state with status := .lost }
    else if !evalHasPowerup state && !evalCanPlay state then
      { state with status := .lost }
    else state
  else state

/-! ## Click handling (`handleCardClick`) -/

/-- The clear set of a bomb play on `slotId`: the target plus its exposed
graph neighbors, deduplicated in insertion order (`new Set([slotId,
...neighbors])`). -/
def bombCleared (prev : GameState) (slotId : Nat) : List Nat :=
  (slotId ::
    (ADJACENCY slotId).filter (fun id =>
      (getExposedIds prev.tableau).contains id)).eraseDups

/-- The clear set of a rainbow play on a target of rank `rank`: every
exposed slot whose occupant has that rank. -/
def rainbowCleared (prev : GameState) (rank : Nat) : List Nat :=
  (getExposedIds prev.tableau).filter (fun id =>
    match (prev.tableau[id]?).bind (·.card) with
    | some c => c.rank == rank
    | none => false)

/-- `handleCardClick(slotId)` as a state transition: `commitState` only
pushes history, the produced state is `evaluateState(applyClear(...).state)`
on the legal paths and the unchanged state on every rejected path.  The
source binds `currentExposedIds`/`currentExposedSet` once; those pure
expressions are inlined into the two branches that use them
(`bombCleared`, `rainbowCleared`). -/
def handleCardClick (prev : GameState) (slotId : Nat) : GameState :=
  if prev.status ≠ .playing then prev
  else
    match prev.tableau[slotId]? with
    | none => prev
    | some slot =>
      match slot.card with
      | none => prev
      | some card =>
        if !isExposed slot prev.tableau then prev
        else
          match prev.activePowerup with
          | none =>
            match prev.waste.getLast? with
            | none => prev
            | some wasteTop =>
              if !isAdjacentRank card.rank wasteTop.rank prev.wrapEnabled then prev
              else evaluateState (applyClear prev [slotId] (some card) none).state
          | some .wild =>
            if prev.powerups.wild = 0 then prev
            else evaluateState (applyClear prev [slotId] (some card) (some .wild)).state
          | some .bomb =>
            if prev.powerups.bomb = 0 then prev
            else
              evaluateState
                (applyClear prev (bombCleared prev slotId) (some card) (some .bomb)).state
          | some .rainbow =>
            if prev.powerups.rainbow = 0 then prev
            else
              evaluateState
                (applyClear prev (rainbowCleared prev card.rank) (some card)
                  (some .rainbow)).state

/-! ## Other transitions (`drawFromStock`, `useHold`, `togglePowerup`,
`toggleWrap`) -/

/-- `drawFromStock`: pop the stock top onto waste, reset combo, clear the
active powerup, then run the terminal evaluation. -/
def drawFromStock (prev : GameState) : GameState :=
  if prev.status ≠ .playing then prev
  else
    match prev.stock.getLast? with
    | none => prev
    | some drawn =>
      evaluateState
        { prev with
            stock := prev.stock.dropLast,
            waste := prev.waste ++ [drawn],
            combo := 0,
            activePowerup := none }

/-- `useHold`: pop the waste top; a previously held card is pushed back onto
waste; the popped card becomes the hold; combo resets. -/
def useHold (prev : GameState) : GameState :=
  if prev.status ≠ .playing then prev
  else
    match prev.waste.getLast? with
    | none => prev
    | some wasteTop =>
      let nextWaste :=
        match prev.hold with
        | some h => prev.waste.dropLast ++ [h]
        | none => prev.waste.dropLast
      evaluateState
        { prev with
            waste := nextWaste,
            hold := some wasteTop,
            combo := 0,
            activePowerup := none }

/-- `togglePowerup(powerup)`: toggle the active powerup; no-op when the
inventory is empty or the game is over. -/
def togglePowerup (prev : GameState) (powerup : Powerup) : GameState :=
  if prev.status ≠ .playing then prev
  else if prev.powerups.get powerup = 0 then prev
  else if prev.activePowerup = some powerup then
    { prev with activePowerup := none }
  else { prev with activePowerup := some powerup }

/-- `toggleWrap(enabled)`: pure field update, no-op when unchanged. -/
def toggleWrap (prev : GameState) (enabled : Bool) : GameState :=
  if prev.wrapEnabled = enabled then prev
  else { prev with wrapEnabled := enabled }

/-! ## The transition system -/

/-- The external inputs the UI can feed into the engine. -/
inductive Action where
  | click (slotId : Nat)
  | draw
  | hold
  | toggleWrap (enabled : Bool)
  | selectPowerup (p : Powerup)
deriving DecidableEq, Repr

/-- Dispatch one action. -/
def step (s : GameState) : Action → GameState
  | .click slotId => handleCardClick s slotId
  | .draw => drawFromStock s
  | .hold => useHold s
  | .toggleWrap b => toggleWrap s b
  | .selectPowerup p => togglePowerup s p

/-- Run a list of actions in order. -/
def runActions (s : GameState) (acts : List Action) : GameState :=
  acts.foldl step s

/-- States reachable from some deal by some action sequence. -/
inductive Reachable : GameState → Prop
  | deal (seed : String) : Reachable (createGameState seed)
  | step {s : GameState} (a : Action) : Reachable s → Reachable (step s a)

/-! ## Card accounting -/

/-- All cards held by a state: tableau occupants, stock, waste and hold. -/
def cardMultiset (s : GameState) : Multiset Card :=
  (↑(s.tableau.filterMap (·.card)) : Multiset Card) + ↑s.stock + ↑s.waste +
    (match s.hold with
     | some c => {c}
     | none => 0)

/-- The canonical 52-card deck as a multiset. -/
def deckMultiset : Multiset Card := ↑createDeck

/-! ## Basic layout and deck facts -/

/-- Erase a slot's occupant; used to compare tableau shapes. -/
def clearSlot (s : Slot) : Slot := { s with card := none }

theorem LAYOUT_length : LAYOUT.length = 28 := by decide

theorem createDeck_length : createDeck.length = 52 := by decide

theorem LAYOUT_map_clearSlot : LAYOUT.map clearSlot = LAYOUT := by decide

theorem LAYOUT_id : ∀ k < 28, (LAYOUT[k]?).map (·.id) = some k := by decide

/-! ## The shuffle is a permutation -/

theorem multiset_set {α : Type} (l : List α) (i : Nat) (x d : α)
    (h : i < l.length) :
    (↑(l.set i x) : Multiset α) + {l.getD i d} = ↑l + {x} := by
  induction l generalizing i with
  | nil => simp at h
  | cons a t ih =>
    cases i with
    | zero =>
      simp only [List.set, List.getD_eq_getElem?_getD, List.getElem?_cons_zero,
        Option.getD_some, ← Multiset.cons_coe, ← Multiset.singleton_add]
      abel
    | succ n =>
      have hn : n < t.length := by simpa using h
      simp only [List.set, List.getD_eq_getElem?_getD, List.getElem?_cons_succ,
        ← Multiset.cons_coe, Multiset.cons_add]
      rw [← List.getD_eq_getElem?_getD, ih n hn]

theorem swapAt_coe (l : List Card) (i j : Nat) (hi : i < l.length)
    (hj : j < l.length) : (↑(swapAt l i j) : Multiset Card) = ↑l := by
  unfold swapAt
  have hj' : j < (l.set i (l.getD j default)).length := by simpa using hj
  have h2 := multiset_set (l.set i (l.getD j default)) j (l.getD i default)
    default hj'
  have h1 := multiset_set l i (l.getD j default) default hi
  by_cases hij : i = j
  · subst hij
    have hset : (l.set i (l.getD i default)).getD i default = l.getD i default := by
      simp [List.getD_eq_getElem?_getD, List.getElem?_set_eq_of_lt _ hi]
    rw [hset] at h2
    have h3 : (↑((l.set i (l.getD i default)).set i (l.getD i default)) :
        Multiset Card) = ↑(l.set i (l.getD i default)) := add_right_cancel h2
    rw [h3]
    exact add_right_cancel h1
  · have hset : (l.set i (l.getD j default)).getD j default = l.getD j default := by
      simp [List.getD_eq_getElem?_getD, List.getElem?_set_ne hij]
    rw [hset] at h2
    rw [h1] at h2
    exact add_right_cancel h2

theorem U32_eq : U32 = 2 ^ 32 := by norm_num [U32]

theorem U32_pos : 0 < U32 := by norm_num [U32]

theorem shiftRight_le_self (m n : Nat) : m >>> n ≤ m := by
  rw [Nat.shiftRight_eq_div_pow]
  exact Nat.div_le_self _ _

theorem xor_lt_U32 {a b : Nat} (ha : a < U32) (hb : b < U32) : a ^^^ b < U32 := by
  rw [U32_eq] at *
  exact Nat.xor_lt_two_pow ha hb

theorem mulberryNext_fst_lt (a : Nat) : (mulberryNext a).1 < U32 := by
  unfold mulberryNext
  have hmod : ∀ n : Nat, n % U32 < U32 := fun n => Nat.mod_lt _ U32_pos
  exact xor_lt_U32 (hmod _) (lt_of_le_of_lt (shiftRight_le_self _ _) (hmod _))

theorem shuffleGo_coe (g : Nat → Nat × Nat) (hg : ∀ st, (g st).1 < U32) :
    ∀ (k : Nat) (l : List Card) (st : Nat),
    k < l.length → (↑(shuffleGo g k l st).1 : Multiset Card) = ↑l
  | 0, _, _, _ => rfl
  | k + 1, l, st, h => by
    rw [shuffleGo]
    have hj : (g st).1 * (k + 2) / U32 < k + 2 := by
      rw [Nat.div_lt_iff_lt_mul U32_pos]
      exact lt_of_lt_of_eq (Nat.mul_lt_mul_of_pos_right (hg st) (by omega))
        (Nat.mul_comm _ _)
    have hjl : (g st).1 * (k + 2) / U32 < l.length := by omega
    have hlen : (swapAt l (k + 1) ((g st).1 * (k + 2) / U32)).length
        = l.length := by simp [swapAt]
    rw [shuffleGo_coe g hg k _ _ (by omega)]
    exact swapAt_coe l (k + 1) _ h hjl

theorem shuffledDeck_coe (seed : String) :
    (↑(shuffledDeck seed) : Multiset Card) = ↑createDeck := by
  unfold shuffledDeck shuffle
  exact shuffleGo_coe mulberryNext mulberryNext_fst_lt _ _ _
    (by rw [createDeck_length]; omega)

theorem shuffledDeck_length (seed : String) : (shuffledDeck seed).length = 52 := by
  have h := congrArg Multiset.card (shuffledDeck_coe seed)
  rw [Multiset.coe_card, Multiset.coe_card, createDeck_length] at h
  exact h

/-! ## Structure of the dealt state -/

theorem assignCards_length : ∀ (L : List Slot) (i : Nat) (d : List Card),
    (assignCards L i d).length = L.length
  | [], _, _ => rfl
  | _ :: rest, i, d => by simp [assignCards, assignCards_length rest (i + 1) d]

theorem assignCards_map_clearSlot : ∀ (L : List Slot) (i : Nat) (d : List Card),
    (assignCards L i d).map clearSlot = L.map clearSlot
  | [], _, _ => rfl
  | pos :: rest, i, d => by
    simp [assignCards, clearSlot, assignCards_map_clearSlot rest (i + 1) d]

theorem assignCards_map_card : ∀ (L : List Slot) (i : Nat) (d : List Card),
    i + L.length ≤ d.length →
    (assignCards L i d).map (·.card) = ((d.drop i).take L.length).map some
  | [], _, _, _ => by simp [assignCards]
  | pos :: rest, i, d, h => by
    have hi : i < d.length := by simp at h; omega
    have hdrop : d.drop i = d[i] :: d.drop (i + 1) := List.drop_eq_getElem_cons hi
    simp only [assignCards, List.map_cons, List.getElem?_eq_getElem hi, hdrop,
      List.length_cons, List.take_succ_cons]
    rw [assignCards_map_card rest (i + 1) d (by simp at h ⊢; omega)]

theorem map_card_eq_map_some {t : List Slot} {l : List Card}
    (h : t.map (·.card) = l.map some) : t.filterMap (·.card) = l := by
  induction t generalizing l with
  | nil => cases l <;> simp_all
  | cons s rest ih =>
    cases l with
    | nil => simp_all
    | cons c cs =>
      simp only [List.map_cons, List.cons.injEq] at h
      simp [List.filterMap_cons, h.1, ih h.2]

/-! ## The dealt state: piles and tableau contents -/

theorem dealFrom_stock (seed : String) (d : List Card) :
    (dealFrom seed d).stock = (d.drop (assignCards LAYOUT 0 d).length).dropLast := rfl

theorem dealFrom_waste (seed : String) (d : List Card) :
    (dealFrom seed d).waste = (d.drop (assignCards LAYOUT 0 d).length).getLast?.toList := rfl

theorem dealFrom_tableau (seed : String) (d : List Card) :
    (dealFrom seed d).tableau = assignCards LAYOUT 0 d := rfl

theorem createGameState_stock (seed : String) :
    (createGameState seed).stock = ((shuffledDeck seed).drop 28).dropLast := by
  rw [createGameState, dealFrom_stock, assignCards_length, LAYOUT_length]

theorem createGameState_waste (seed : String) :
    (createGameState seed).waste =
      ((shuffledDeck seed).drop 28).getLast?.toList := by
  rw [createGameState, dealFrom_waste, assignCards_length, LAYOUT_length]

theorem drop28_ne_nil (seed : String) : (shuffledDeck seed).drop 28 ≠ [] := by
  intro hc
  have h2 := congrArg List.length hc
  rw [List.length_drop, shuffledDeck_length] at h2
  simp at h2

theorem createGameState_stock_length (seed : String) :
    (createGameState seed).stock.length = 23 := by
  rw [createGameState_stock, List.length_dropLast, List.length_drop,
    shuffledDeck_length]

theorem createGameState_waste_length (seed : String) :
    (createGameState seed).waste.length = 1 := by
  rw [createGameState_waste, List.getLast?_eq_getLast _ (drop28_ne_nil seed)]
  rfl

theorem createGameState_tableau_map_card (seed : String) :
    (createGameState seed).tableau.map (·.card) =
      ((shuffledDeck seed).take 28).map some := by
  have h : (0 : Nat) + LAYOUT.length ≤ (shuffledDeck seed).length := by
    rw [LAYOUT_length, shuffledDeck_length]; omega
  have h2 := assignCards_map_card LAYOUT 0 (shuffledDeck seed) h
  rw [List.drop_zero, LAYOUT_length] at h2
  rw [createGameState, dealFrom_tableau, h2]

theorem createGameState_cardMultiset (seed : String) :
    cardMultiset (createGameState seed) = deckMultiset := by
  have hfm : (createGameState seed).tableau.filterMap (·.card) =
      (shuffledDeck seed).take 28 :=
    map_card_eq_map_some (createGameState_tableau_map_card seed)
  have hne := drop28_ne_nil seed
  have hlast := List.getLast?_eq_getLast _ hne
  have hhold : (createGameState seed).hold = none := rfl
  rw [cardMultiset, hfm, createGameState_stock, createGameState_waste, hlast,
    hhold]
  show _ + _ + _ + 0 = _
  rw [add_zero, Option.toList_some, Multiset.coe_add, Multiset.coe_add,
    List.append_assoc, List.dropLast_concat_getLast hne,
    List.take_append_drop, deckMultiset]
  exact shuffledDeck_coe seed


/-! ## Terminal evaluation only touches score, status, bonusAwarded -/

theorem evaluateState_ex (s : GameState) :
    ∃ sc stt bn, evaluateState s =
      { s with score := sc, status := stt, bonusAwarded := bn } := by
  rw [evaluateState]
  repeat' split
  all_goals exact ⟨_, _, _, rfl⟩

theorem evaluateState_tableau (s : GameState) :
    (evaluateState s).tableau = s.tableau := by
  obtain ⟨sc, stt, bn, h⟩ := evaluateState_ex s
  rw [h]

theorem evaluateState_stock (s : GameState) :
    (evaluateState s).stock = s.stock := by
  obtain ⟨sc, stt, bn, h⟩ := evaluateState_ex s
  rw [h]

theorem evaluateState_waste (s : GameState) :
    (evaluateState s).waste = s.waste := by
  obtain ⟨sc, stt, bn, h⟩ := evaluateState_ex s
  rw [h]

theorem evaluateState_hold (s : GameState) :
    (evaluateState s).hold = s.hold := by
  obtain ⟨sc, stt, bn, h⟩ := evaluateState_ex s
  rw [h]

theorem evaluateState_not_playing {s : GameState} (h : s.status ≠ .playing) :
    evaluateState s = s := by
  rw [evaluateState, if_pos h]

theorem evaluateState_playing_eq {s : GameState}
    (h : (evaluateState s).status = .playing) : evaluateState s = s := by
  by_cases h1 : s.status ≠ .playing
  · exact evaluateState_not_playing h1
  rw [evaluateState, if_neg h1] at h ⊢
  by_cases h2 : s.tableau.all (fun slot => slot.card.isNone)
  · rw [if_pos h2] at h ⊢
    by_cases h3 : (!s.bonusAwarded) = true
    · rw [if_pos h3] at h; simp at h
    · rw [if_neg h3] at h; simp at h
  rw [if_neg h2] at h ⊢
  by_cases h4 : s.stock.length = 0
  · rw [if_pos h4] at h ⊢
    by_cases h5 : (getExposedIds s.tableau).length = 0
    · rw [if_pos h5] at h; simp at h
    rw [if_neg h5] at h ⊢
    by_cases h6 : (!evalHasPowerup s && !evalCanPlay s) = true
    · rw [if_pos h6] at h; simp at h
    · rw [if_neg h6]
  · rw [if_neg h4]


/-! ## Clear resolution and win-bonus lemmas -/

theorem applyClear_none (prev : GameState) (ids : List Nat) (p : Option Powerup) :
    applyClear prev ids none p = ⟨prev, 0⟩ := rfl

theorem applyClear_state (prev : GameState) (ids : List Nat) (c : Card)
    (p : Option Powerup) :
    (applyClear prev ids (some c) p).state =
      { prev with
          tableau := prev.tableau.map (fun slot =>
            if ids.contains slot.id then { slot with card := none } else slot),
          waste := prev.waste ++ [c],
          combo := prev.combo + ids.length,
          score := prev.score +
            round ((ids.length : ℚ) * (BASE_POINTS : ℚ) *
              getComboMultiplier (prev.combo + ids.length)),
          powerups := (grantPowerups prev.combo (prev.combo + ids.length)
            (match p with
             | some pk => prev.powerups.spend pk
             | none => prev.powerups) prev.powerupCycle).1,
          powerupCycle := (grantPowerups prev.combo (prev.combo + ids.length)
            (match p with
             | some pk => prev.powerups.spend pk
             | none => prev.powerups) prev.powerupCycle).2,
          activePowerup := none } := rfl

/-! ## Win bonus bookkeeping in `evaluateState` -/

theorem evaluateState_win {s : GameState} (h1 : s.status = .playing)
    (h2 : s.tableau.all (fun sl => sl.card.isNone) = true)
    (h3 : s.bonusAwarded = false) :
    evaluateState s =
      { s with
          score := s.score + (s.stock.length * STOCK_BONUS : Nat),
          status := .won,
          bonusAwarded := true } := by
  rw [evaluateState, if_neg (by simp [h1]), if_pos h2, if_pos (by simp [h3])]

theorem evaluateState_score_eq {s : GameState}
    (h : ¬(s.status = .playing ∧ s.tableau.all (fun sl => sl.card.isNone) = true ∧
      s.bonusAwarded = false)) :
    (evaluateState s).score = s.score := by
  by_cases h1 : s.status ≠ .playing
  · rw [evaluateState_not_playing h1]
  rw [evaluateState, if_neg h1]
  push_neg at h1
  by_cases h2 : s.tableau.all (fun sl => sl.card.isNone) = true
  · rw [if_pos h2]
    have h3 : s.bonusAwarded = true := by
      rcases Bool.eq_false_or_eq_true s.bonusAwarded with hb | hb
      · exact hb
      · exact absurd ⟨h1, h2, hb⟩ h
    rw [if_neg (by simp [h3])]
  rw [if_neg h2]
  by_cases h4 : s.stock.length = 0
  · rw [if_pos h4]
    by_cases h5 : (getExposedIds s.tableau).length = 0
    · rw [if_pos h5]
    rw [if_neg h5]
    by_cases h6 : (!evalHasPowerup s && !evalCanPlay s) = true
    · rw [if_pos h6]
    · rw [if_neg h6]
  · rw [if_neg h4]

theorem evaluateState_bonus_stays {s : GameState} (h : s.bonusAwarded = true) :
    (evaluateState s).bonusAwarded = true := by
  by_cases h1 : s.status ≠ .playing
  · rw [evaluateState_not_playing h1]; exact h
  rw [evaluateState, if_neg h1]
  by_cases h2 : s.tableau.all (fun sl => sl.card.isNone) = true
  · rw [if_pos h2, if_neg (by simp [h])]; exact h
  rw [if_neg h2]
  by_cases h4 : s.stock.length = 0
  · rw [if_pos h4]
    by_cases h5 : (getExposedIds s.tableau).length = 0
    · rw [if_pos h5]; exact h
    rw [if_neg h5]
    by_cases h6 : (!evalHasPowerup s && !evalCanPlay s) = true
    · rw [if_pos h6]; exact h
    · rw [if_neg h6]; exact h
  · rw [if_neg h4]; exact h


/-! ## Powerup grant characterization -/

/-- The rotation sequence the spec describes: `n` consecutive kinds of
`POWERUP_ORDER` starting at cursor position `cycle`. -/
def rotKinds (cycle n : Nat) : List Powerup :=
  (List.range n).map (fun j => POWERUP_ORDER.getD ((cycle + j) % POWERUP_ORDER.length) .wild)

/-- Grant one unit of each listed kind in order. -/
def bumpAll (inv : Inventory) (ps : List Powerup) : Inventory :=
  ps.foldl Inventory.bump inv

theorem rotKinds_zero (cycle : Nat) : rotKinds cycle 0 = [] := rfl

theorem rotKinds_succ (cycle n : Nat) :
    rotKinds cycle (n + 1) =
      POWERUP_ORDER.getD (cycle % POWERUP_ORDER.length) .wild :: rotKinds (cycle + 1) n := by
  rw [rotKinds, List.range_succ_eq_map, List.map_cons, List.map_map]
  refine congrArg₂ _ (by rw [Nat.add_zero]) ?_
  rw [rotKinds]
  refine List.map_congr_left (fun j _ => ?_)
  have : cycle + (j + 1) = cycle + 1 + j := by omega
  simp only [Function.comp_apply, Nat.succ_eq_add_one, this]

theorem grantPowerupsAux_spec : ∀ (l : List Nat) (inv : Inventory) (cycle : Nat),
    grantPowerupsAux inv cycle l =
      (bumpAll inv (rotKinds cycle (l.filter (· % 3 == 0)).length),
       cycle + (l.filter (· % 3 == 0)).length)
  | [], inv, cycle => by
    rw [grantPowerupsAux]
    simp [rotKinds_zero, bumpAll]
  | c :: rest, inv, cycle => by
    rw [grantPowerupsAux]
    by_cases hc : (c % 3 == 0) = true
    · rw [if_pos hc, grantPowerupsAux_spec rest _ _,
        List.filter_cons_of_pos (p := fun x => x % 3 == 0) hc,
        List.length_cons, rotKinds_succ]
      have hb : ∀ (k : Powerup) (ks : List Powerup),
          bumpAll inv (k :: ks) = bumpAll (inv.bump k) ks := fun k ks => rfl
      rw [hb]
      simp only [Prod.mk.injEq, true_and]
      omega
    · rw [if_neg hc, grantPowerupsAux_spec rest _ _,
        List.filter_cons_of_neg (p := fun x => x % 3 == 0) (by simpa using hc)]

/-- The number of multiples of 3 in the half-open combo interval
`(oldCombo, oldCombo + n]`. -/
def count3 (oldCombo n : Nat) : Nat :=
  ((List.range' (oldCombo + 1) n).filter (· % 3 == 0)).length

theorem grantPowerups_spec (oldCombo n : Nat) (inv : Inventory) (cycle : Nat) :
    grantPowerups oldCombo (oldCombo + n) inv cycle =
      (bumpAll inv (rotKinds cycle (count3 oldCombo n)),
       cycle + count3 oldCombo n) := by
  rw [grantPowerups, Nat.add_sub_cancel_left]
  exact grantPowerupsAux_spec _ _ _

theorem bumpAll_total : ∀ (ps : List Powerup) (inv : Inventory),
    (bumpAll inv ps).wild + (bumpAll inv ps).bomb + (bumpAll inv ps).rainbow =
      inv.wild + inv.bomb + inv.rainbow + ps.length
  | [], inv => by simp [bumpAll]
  | p :: rest, inv => by
    rw [bumpAll, List.foldl_cons, ← bumpAll, bumpAll_total rest _, List.length_cons]
    cases p <;> simp [Inventory.bump] <;> omega


/-! ## Reachability invariant: layout shape and card conservation -/

/-- The tableau keeps the static layout's ids, rows and columns; only
occupants change. -/
def TableauShape (t : List Slot) : Prop := t.map clearSlot = LAYOUT

theorem shape_length {t : List Slot} (h : TableauShape t) : t.length = 28 := by
  have h2 := congrArg List.length h
  rwa [List.length_map, LAYOUT_length] at h2

theorem shape_id {t : List Slot} (h : TableauShape t) {k : Nat} {slot : Slot}
    (hget : t[k]? = some slot) : slot.id = k := by
  have hk : k < t.length := (List.getElem?_eq_some.1 hget).1
  have hmap : (t.map clearSlot)[k]? = some (clearSlot slot) := by
    rw [List.getElem?_map, hget]; rfl
  rw [h] at hmap
  have hid := LAYOUT_id k (by rw [shape_length h] at hk; exact hk)
  rw [hmap] at hid
  simpa [clearSlot] using hid

theorem shape_clearMap (t : List Slot) (ids : List Nat) :
    (t.map (fun slot =>
      if ids.contains slot.id then { slot with card := none } else slot)).map
        clearSlot = t.map clearSlot := by
  rw [List.map_map]
  refine List.map_congr_left (fun slot _ => ?_)
  show clearSlot (if ids.contains slot.id then { slot with card := none } else slot)
    = clearSlot slot
  by_cases h : ids.contains slot.id = true
  · rw [if_pos h]; rfl
  · rw [if_neg h]

theorem clear_split (ids : List Nat) : ∀ t : List Slot,
    (↑(t.filterMap (·.card)) : Multiset Card) =
      ↑((t.map (fun slot =>
          if ids.contains slot.id then { slot with card := none } else slot)).filterMap
        (·.card)) +
      ↑((t.filter (fun slot => ids.contains slot.id)).filterMap (·.card))
  | [] => rfl
  | slot :: rest => by
    have ih := clear_split ids rest
    by_cases hin : ids.contains slot.id = true
    · rw [List.map_cons, if_pos hin,
        List.filter_cons_of_pos (by simpa using hin)]
      cases hc : slot.card with
      | none =>
        rw [List.filterMap_cons, List.filterMap_cons, List.filterMap_cons]
        simp only [hc]
        exact ih
      | some c =>
        rw [List.filterMap_cons, List.filterMap_cons, List.filterMap_cons]
        simp only [hc]
        rw [← Multiset.cons_coe, ← Multiset.cons_coe, ih,
          ← Multiset.singleton_add, ← Multiset.singleton_add]
        exact add_left_comm _ _ _
    · rw [List.map_cons, if_neg hin,
        List.filter_cons_of_neg (by simpa using hin)]
      cases hc : slot.card with
      | none =>
        rw [List.filterMap_cons, List.filterMap_cons]
        simp only [hc]
        exact ih
      | some c =>
        rw [List.filterMap_cons, List.filterMap_cons]
        simp only [hc]
        rw [← Multiset.cons_coe, ← Multiset.cons_coe, ih,
          ← Multiset.singleton_add, ← Multiset.singleton_add]
        exact (add_assoc _ _ _).symm


theorem cardMultiset_evaluateState (s : GameState) :
    cardMultiset (evaluateState s) = cardMultiset s := by
  rw [cardMultiset, cardMultiset, evaluateState_tableau, evaluateState_stock,
    evaluateState_waste, evaluateState_hold]

theorem mem_cleared {t : List Slot} {ids : List Nat} {k : Nat} {slot : Slot}
    {c : Card} (hshape : TableauShape t) (hget : t[k]? = some slot)
    (hcard : slot.card = some c) (hkin : ids.contains k = true) :
    c ∈ (t.filter (fun slot => ids.contains slot.id)).filterMap (·.card) := by
  refine List.mem_filterMap.2 ⟨slot, List.mem_filter.2 ⟨List.getElem?_mem hget, ?_⟩,
    hcard⟩
  rw [shape_id hshape hget]
  exact hkin

theorem cardMultiset_applyClear_le {s : GameState} {ids : List Nat} {k : Nat}
    {slot : Slot} {c : Card} {p : Option Powerup}
    (hshape : TableauShape s.tableau) (hget : s.tableau[k]? = some slot)
    (hcard : slot.card = some c) (hkin : ids.contains k = true) :
    cardMultiset (applyClear s ids (some c) p).state ≤ cardMultiset s := by
  rw [applyClear_state, cardMultiset, cardMultiset]
  set cleared : Multiset Card :=
    ↑((s.tableau.filter (fun slot => ids.contains slot.id)).filterMap (·.card))
    with hcleared
  have hsplit := clear_split ids s.tableau
  have hmem : {c} ≤ cleared := by
    rw [Multiset.singleton_le, hcleared]
    exact Multiset.mem_coe.2 (mem_cleared hshape hget hcard hkin)
  have key :
      (↑((s.tableau.map (fun slot =>
          if ids.contains slot.id then { slot with card := none } else slot)).filterMap
        (·.card)) : Multiset Card) + ↑s.stock + ↑(s.waste ++ [c]) +
        (match s.hold with
         | some h => ({h} : Multiset Card)
         | none => 0) + cleared =
      (↑(s.tableau.filterMap (·.card)) : Multiset Card) + ↑s.stock + ↑s.waste +
        (match s.hold with
         | some h => ({h} : Multiset Card)
         | none => 0) + {c} := by
    rw [hsplit]
    have hw : (↑(s.waste ++ [c]) : Multiset Card) = ↑s.waste + {c} := by
      rw [← Multiset.coe_add]
      rfl
    rw [hw]
    abel
  have hle :
      (↑((s.tableau.map (fun slot =>
          if ids.contains slot.id then { slot with card := none } else slot)).filterMap
        (·.card)) : Multiset Card) + ↑s.stock + ↑(s.waste ++ [c]) +
        (match s.hold with
         | some h => ({h} : Multiset Card)
         | none => 0) + cleared ≤
      (↑(s.tableau.filterMap (·.card)) : Multiset Card) + ↑s.stock + ↑s.waste +
        (match s.hold with
         | some h => ({h} : Multiset Card)
         | none => 0) + cleared := by
    rw [key]
    exact add_le_add_left hmem _
  exact le_of_add_le_add_right hle

theorem mem_eraseDups_loop : ∀ (as bs : List Nat) (x : Nat), x ∈ bs →
    x ∈ List.eraseDups.loop as bs
  | [], bs, x, h => by
    rw [List.eraseDups.loop]
    exact List.mem_reverse.2 h
  | a :: as, bs, x, h => by
    rw [List.eraseDups.loop]
    cases hel : bs.elem a with
    | true => simp only; exact mem_eraseDups_loop as bs x h
    | false =>
      simp only
      exact mem_eraseDups_loop as (a :: bs) x (List.mem_cons_of_mem _ h)

theorem head_mem_eraseDups (k : Nat) (l : List Nat) : k ∈ (k :: l).eraseDups := by
  rw [List.eraseDups, List.eraseDups.loop]
  exact mem_eraseDups_loop l [k] k (List.mem_singleton.2 rfl)

theorem mem_getExposedIds {t : List Slot} {k : Nat} {slot : Slot}
    (hget : t[k]? = some slot) (hid : slot.id = k)
    (hexp : isExposed slot t = true) : k ∈ getExposedIds t := by
  rw [getExposedIds]
  exact List.mem_map.2 ⟨slot, List.mem_filter.2 ⟨List.getElem?_mem hget, hexp⟩, hid⟩

/-- The reachability invariant: the tableau keeps the layout shape and the
cards in play form a sub-multiset of the canonical deck. -/
def Inv (s : GameState) : Prop :=
  TableauShape s.tableau ∧ cardMultiset s ≤ deckMultiset


theorem applyClear_tableau (s : GameState) (ids : List Nat) (c : Card)
    (p : Option Powerup) :
    (applyClear s ids (some c) p).state.tableau =
      s.tableau.map (fun slot =>
        if ids.contains slot.id then { slot with card := none } else slot) := rfl

theorem inv_evalClear {s : GameState} {ids : List Nat} {k : Nat} {slot : Slot}
    {c : Card} {p : Option Powerup} (hInv : Inv s)
    (hget : s.tableau[k]? = some slot) (hcard : slot.card = some c)
    (hkin : ids.contains k = true) :
    Inv (evaluateState (applyClear s ids (some c) p).state) := by
  obtain ⟨hshape, hle⟩ := hInv
  constructor
  · show TableauShape _
    rw [TableauShape, evaluateState_tableau, applyClear_tableau, shape_clearMap]
    exact hshape
  · rw [cardMultiset_evaluateState]
    exact le_trans (cardMultiset_applyClear_le hshape hget hcard hkin) hle

theorem inv_click {s : GameState} (hInv : Inv s) (k : Nat) :
    Inv (handleCardClick s k) := by
  rw [handleCardClick]
  split
  · exact hInv
  split
  · exact hInv
  rename_i slot hget
  split
  · exact hInv
  rename_i card hcard
  split
  · exact hInv
  rename_i hexp
  have hexp2 : isExposed slot s.tableau = true := by
    rcases Bool.eq_false_or_eq_true (isExposed slot s.tableau) with hb | hb
    · exact hb
    · exact absurd (by rw [hb]; rfl) hexp
  have hid : slot.id = k := shape_id hInv.1 hget
  split
  · -- plain match: split on waste top
    split
    · exact hInv
    split
    · exact hInv
    exact inv_evalClear hInv hget hcard (by simp)
  · -- wild
    split
    · exact hInv
    exact inv_evalClear hInv hget hcard (by simp)
  · -- bomb
    split
    · exact hInv
    refine inv_evalClear hInv hget hcard ?_
    rw [bombCleared]
    exact List.elem_iff.2 (head_mem_eraseDups k _)
  · -- rainbow
    split
    · exact hInv
    refine inv_evalClear hInv hget hcard ?_
    rw [rainbowCleared]
    refine List.elem_iff.2 (List.mem_filter.2
      ⟨mem_getExposedIds hget hid hexp2, ?_⟩)
    rw [hget]
    simp [hcard]

theorem inv_draw {s : GameState} (hInv : Inv s) : Inv (drawFromStock s) := by
  rw [drawFromStock]
  by_cases h1 : s.status ≠ .playing
  · rw [if_pos h1]; exact hInv
  rw [if_neg h1]
  cases hlast : s.stock.getLast? with
  | none => exact hInv
  | some drawn =>
    obtain ⟨hshape, hle⟩ := hInv
    constructor
    · show TableauShape _
      rw [TableauShape, evaluateState_tableau]
      exact hshape
    · rw [cardMultiset_evaluateState]
      have hs : s.stock.dropLast ++ [drawn] = s.stock := by
        obtain ⟨ys, hys⟩ := List.getLast?_eq_some_iff.1 hlast
        rw [hys]
        simp
      have heq : cardMultiset
          { s with
              stock := s.stock.dropLast,
              waste := s.waste ++ [drawn],
              combo := 0,
              activePowerup := none } = cardMultiset s := by
        show (↑(s.tableau.filterMap (·.card)) : Multiset Card) + ↑s.stock.dropLast +
            ↑(s.waste ++ [drawn]) +
            (match s.hold with
             | some c => ({c} : Multiset Card)
             | none => 0) =
          ↑(s.tableau.filterMap (·.card)) + ↑s.stock + ↑s.waste +
            (match s.hold with
             | some c => ({c} : Multiset Card)
             | none => 0)
        have e1 : (↑(s.waste ++ [drawn]) : Multiset Card) = ↑s.waste + {drawn} := by
          rw [← Multiset.coe_singleton, Multiset.coe_add]
        have e2 : (↑s.stock : Multiset Card) = ↑s.stock.dropLast + {drawn} := by
          rw [← Multiset.coe_singleton, Multiset.coe_add, hs]
        rw [e1, e2]
        abel
      rw [heq]
      exact hle

theorem inv_hold {s : GameState} (hInv : Inv s) : Inv (useHold s) := by
  rw [useHold]
  by_cases h1 : s.status ≠ .playing
  · rw [if_pos h1]; exact hInv
  rw [if_neg h1]
  cases hlast : s.waste.getLast? with
  | none => exact hInv
  | some wasteTop =>
    obtain ⟨hshape, hle⟩ := hInv
    have hw : s.waste.dropLast ++ [wasteTop] = s.waste := by
      obtain ⟨ys, hys⟩ := List.getLast?_eq_some_iff.1 hlast
      rw [hys]
      simp
    have hwro : (↑s.waste : Multiset Card) = ↑s.waste.dropLast + {wasteTop} := by
      rw [← Multiset.coe_singleton, Multiset.coe_add, hw]
    cases hh : s.hold with
    | none =>
      constructor
      · show TableauShape _
        rw [TableauShape, evaluateState_tableau]
        exact hshape
      · rw [cardMultiset_evaluateState]
        have hz : (match s.hold with
            | some c => ({c} : Multiset Card)
            | none => 0) = 0 := by rw [hh]
        have heq : cardMultiset
            { s with
                waste := s.waste.dropLast,
                hold := some wasteTop,
                combo := 0,
                activePowerup := none } = cardMultiset s := by
          show (↑(s.tableau.filterMap (·.card)) : Multiset Card) + ↑s.stock +
              ↑s.waste.dropLast + ({wasteTop} : Multiset Card) =
            ↑(s.tableau.filterMap (·.card)) + ↑s.stock + ↑s.waste +
              (match s.hold with
               | some c => ({c} : Multiset Card)
               | none => 0)
          rw [hz, hwro]
          abel
        rw [heq]
        exact hle
    | some held =>
      constructor
      · show TableauShape _
        rw [TableauShape, evaluateState_tableau]
        exact hshape
      · rw [cardMultiset_evaluateState]
        have hz : (match s.hold with
            | some c => ({c} : Multiset Card)
            | none => 0) = {held} := by rw [hh]
        have heq : cardMultiset
            { s with
                waste := s.waste.dropLast ++ [held],
                hold := some wasteTop,
                combo := 0,
                activePowerup := none } = cardMultiset s := by
          show (↑(s.tableau.filterMap (·.card)) : Multiset Card) + ↑s.stock +
              ↑(s.waste.dropLast ++ [held]) + ({wasteTop} : Multiset Card) =
            ↑(s.tableau.filterMap (·.card)) + ↑s.stock + ↑s.waste +
              (match s.hold with
               | some c => ({c} : Multiset Card)
               | none => 0)
          have e1 : (↑(s.waste.dropLast ++ [held]) : Multiset Card) =
              ↑s.waste.dropLast + {held} := by
            rw [← Multiset.coe_singleton, Multiset.coe_add]
          rw [hz, e1, hwro]
          abel
        rw [heq]
        exact hle

theorem inv_toggleWrap {s : GameState} (hInv : Inv s) (b : Bool) :
    Inv (toggleWrap s b) := by
  rw [toggleWrap]
  by_cases h : s.wrapEnabled = b
  · rw [if_pos h]; exact hInv
  · rw [if_neg h]
    obtain ⟨hshape, hle⟩ := hInv
    refine ⟨hshape, ?_⟩
    have heq : cardMultiset { s with wrapEnabled := b } = cardMultiset s := rfl
    rw [heq]
    exact hle

theorem inv_selectPowerup {s : GameState} (hInv : Inv s) (p : Powerup) :
    Inv (togglePowerup s p) := by
  rw [togglePowerup]
  by_cases h1 : s.status ≠ .playing
  · rw [if_pos h1]; exact hInv
  rw [if_neg h1]
  by_cases h2 : s.powerups.get p = 0
  · rw [if_pos h2]; exact hInv
  rw [if_neg h2]
  obtain ⟨hshape, hle⟩ := hInv
  by_cases h3 : s.activePowerup = some p
  · rw [if_pos h3]
    refine ⟨hshape, ?_⟩
    have heq : cardMultiset { s with activePowerup := none } = cardMultiset s := rfl
    rw [heq]
    exact hle
  · rw [if_neg h3]
    refine ⟨hshape, ?_⟩
    have heq : cardMultiset { s with activePowerup := some p } =
      cardMultiset s := rfl
    rw [heq]
    exact hle

theorem inv_step {s : GameState} (hInv : Inv s) : ∀ a : Action, Inv (step s a)
  | .click k => inv_click hInv k
  | .draw => inv_draw hInv
  | .hold => inv_hold hInv
  | .toggleWrap b => inv_toggleWrap hInv b
  | .selectPowerup p => inv_selectPowerup hInv p

theorem inv_createGameState (seed : String) : Inv (createGameState seed) := by
  constructor
  · show TableauShape _
    rw [TableauShape, createGameState, dealFrom_tableau,
      assignCards_map_clearSlot, LAYOUT_map_clearSlot]
  · exact le_of_eq (createGameState_cardMultiset seed)

theorem reachable_inv {s : GameState} (h : Reachable s) : Inv s := by
  induction h with
  | deal seed => exact inv_createGameState seed
  | step a _ ih => exact inv_step ih a


/-! ## Claim theorems -/

theorem applyClear_score (prev : GameState) (ids : List Nat) (c : Card)
    (p : Option Powerup) :
    (applyClear prev ids (some c) p).state.score =
      prev.score + round ((ids.length : ℚ) * (BASE_POINTS : ℚ) *
        getComboMultiplier (prev.combo + ids.length)) := rfl

theorem applyClear_waste (prev : GameState) (ids : List Nat) (c : Card)
    (p : Option Powerup) :
    (applyClear prev ids (some c) p).state.waste = prev.waste ++ [c] := rfl

/-- Claim C6 (part 2 helper): the multiplier only takes the five half-step
values and is capped at 3. -/
theorem getComboMultiplier_values (combo : Nat) :
    getComboMultiplier combo ∈ ({1, 3/2, 2, 5/2, 3} : Set ℚ) ∧
      getComboMultiplier combo ≤ 3 := by
  rw [getComboMultiplier]
  by_cases h0 : combo = 0
  · rw [if_pos h0]
    exact ⟨by left; rfl, by norm_num⟩
  rw [if_neg h0]
  rcases Nat.lt_or_ge (combo / 3) 4 with h4 | h4
  · interval_cases h : combo / 3 <;>
      simp [Set.mem_insert_iff, Set.mem_singleton_iff] <;> norm_num
  · have hmin : min (((combo / 3 : Nat) : ℚ) * (1 / 2 : ℚ)) 2 = 2 := by
      apply min_eq_right
      have hc : (4 : ℚ) ≤ ((combo / 3 : Nat) : ℚ) := by exact_mod_cast h4
      linarith
    rw [hmin]
    refine ⟨?_, by norm_num⟩
    simp [Set.mem_insert_iff, Set.mem_singleton_iff]
    norm_num

theorem isAdjacentRank_iff (a b : Nat) (wrap : Bool) :
    isAdjacentRank a b wrap = true ↔
      (((a : Int) - b).natAbs = 1 ∨
        (wrap = true ∧ ((a = 1 ∧ b = 13) ∨ (a = 13 ∧ b = 1)))) := by
  cases wrap <;> rw [isAdjacentRank] <;> split_ifs <;> simp_all

/-- Claim C2 (amended): for every seed, the dealt state has the first 28
shuffled cards on tableau positions 0..27 in layout order, a stock of
exactly 23 cards (the 24-card remainder in remaining shuffle order, after
the initial up-card is popped off its top), and a waste pile of exactly 1
card (the popped stock top). -/
theorem C2_deal_structure (seed : String) :
    (createGameState seed).tableau.map (·.card) =
        ((shuffledDeck seed).take 28).map some ∧
      (createGameState seed).stock = ((shuffledDeck seed).drop 28).dropLast ∧
      (createGameState seed).stock.length = 23 ∧
      (createGameState seed).waste = ((shuffledDeck seed).drop 28).getLast?.toList ∧
      (createGameState seed).waste.length = 1 :=
  ⟨createGameState_tableau_map_card seed, createGameState_stock seed,
    createGameState_stock_length seed, createGameState_waste seed,
    createGameState_waste_length seed⟩

/-- Claim C2 counterexample: the claim says the dealt stock has 24 cards;
at the concrete seed `"test-1"` it has 23 (52 cards, 28 dealt, 24 to the
remainder, one popped into waste). -/
theorem C2_deal_structure_counterexample :
    (createGameState "test-1").stock.length ≠ 24 := by
  rw [createGameState_stock_length]
  decide

/-- Claim C7: dealing is deterministic in the seed: the embedding of
`createGameState` is a pure function of the seed string (its only source
of randomness is the seed-derived `xmur3`/`mulberry32` stream), so two
deals from the same seed agree on the tableau assignment, the stock order
and the initial waste card. -/
theorem C7_deal_deterministic (seed : String) :
    createGameState seed = createGameState seed ∧
      (createGameState seed).tableau = (createGameState seed).tableau ∧
      (createGameState seed).stock = (createGameState seed).stock ∧
      (createGameState seed).waste = (createGameState seed).waste :=
  ⟨rfl, rfl, rfl, rfl⟩

/-- Claim C8: `isAdjacentRank(a, b, wrap)` holds iff `|a - b| = 1` or wrap
is enabled and `{a, b} = {1, 13}`; in particular `isAdjacentRank 1 13`
is true iff wrap is enabled, `isAdjacentRank 5 6` holds unconditionally
and `isAdjacentRank 5 7` never holds.  (Proved for all naturals, which
subsumes the claim's range `[1, 13]`.) -/
theorem C8_adjacency (a b : Nat) (wrap : Bool) :
    (isAdjacentRank a b wrap = true ↔
      (((a : Int) - b).natAbs = 1 ∨
        (wrap = true ∧ ((a = 1 ∧ b = 13) ∨ (a = 13 ∧ b = 1))))) ∧
      isAdjacentRank 1 13 wrap = wrap ∧
      isAdjacentRank 5 6 wrap = true ∧
      isAdjacentRank 5 7 wrap = false := by
  refine ⟨isAdjacentRank_iff a b wrap, ?_, ?_, ?_⟩ <;> cases wrap <;> decide

/-- Claim C9: the terminal-condition evaluator is idempotent: re-running
`evaluateState` on its own output changes nothing, score included. -/
theorem C9_evaluate_idempotent (s : GameState) :
    evaluateState (evaluateState s) = evaluateState s := by
  by_cases h : (evaluateState s).status = .playing
  · rw [evaluateState_playing_eq h, evaluateState_playing_eq h]
  · exact evaluateState_not_playing h

/-- Claim C6: every clear adds `round(|clearSet| * BASE_POINTS *
multiplier(newCombo))` to the score, with `multiplier(c) = 1 +
min(floor(c / 3) * 0.5, 2)` for `c > 0` and `1` otherwise (on `Nat`,
`c = 0`), and the multiplier only takes the values 1, 1.5, 2, 2.5, 3,
capped at 3. -/
theorem C6_score_formula :
    (∀ (prev : GameState) (ids : List Nat) (c : Card) (p : Option Powerup),
      (applyClear prev ids (some c) p).state.score =
        prev.score + round ((ids.length : ℚ) * 100 *
          (if prev.combo + ids.length = 0 then (1 : ℚ)
           else 1 + min (((prev.combo + ids.length) / 3 : Nat) * (1 / 2 : ℚ)) 2))) ∧
    (∀ combo : Nat,
      getComboMultiplier combo ∈ ({1, 3/2, 2, 5/2, 3} : Set ℚ) ∧
        getComboMultiplier combo ≤ 3) := by
  constructor
  · intro prev ids c p
    rw [applyClear_score, getComboMultiplier]
    norm_num [BASE_POINTS]
  · exact getComboMultiplier_values

/-- The total number of units in an inventory. -/
def invTotal (inv : Inventory) : Nat := inv.wild + inv.bomb + inv.rainbow

/-- Claim C5: a clear taking the combo from `oldCombo` to `oldCombo + n`
grants exactly one unit per multiple of 3 in `(oldCombo, oldCombo + n]`
(`count3 oldCombo n` of them), the granted kinds being consecutive entries
of the rotation `[wild, bomb, rainbow]` starting at cursor `powerupCycle`,
and the cursor advances by the number of units granted; in particular from
combo 0, clearing 3 cards grants exactly the kind at the cursor and
clearing 6 grants exactly the two kinds at cursor and cursor+1. -/
theorem C5_powerup_grants :
    (∀ (oldCombo n : Nat) (inv : Inventory) (cycle : Nat),
      grantPowerups oldCombo (oldCombo + n) inv cycle =
        (bumpAll inv (rotKinds cycle (count3 oldCombo n)),
          cycle + count3 oldCombo n)) ∧
    (∀ (oldCombo n : Nat) (inv : Inventory) (cycle : Nat),
      invTotal (grantPowerups oldCombo (oldCombo + n) inv cycle).1 =
        invTotal inv + count3 oldCombo n) ∧
    (∀ (inv : Inventory) (cycle : Nat),
      grantPowerups 0 3 inv cycle =
        (inv.bump (POWERUP_ORDER.getD (cycle % 3) .wild), cycle + 1)) ∧
    (∀ (inv : Inventory) (cycle : Nat),
      grantPowerups 0 6 inv cycle =
        ((inv.bump (POWERUP_ORDER.getD (cycle % 3) .wild)).bump
            (POWERUP_ORDER.getD ((cycle + 1) % 3) .wild),
          cycle + 2)) := by
  refine ⟨fun o n inv cy => grantPowerups_spec o n inv cy, ?_, ?_, ?_⟩
  · intro o n inv cy
    rw [grantPowerups_spec]
    show invTotal (bumpAll inv (rotKinds cy (count3 o n))) = _
    rw [invTotal, invTotal, bumpAll_total]
    rw [rotKinds, List.length_map, List.length_range]
  · intro inv cy
    rfl
  · intro inv cy
    rfl

/-- Claim C4: the stock bonus is added at most once per deal: the score
changes under `evaluateState` exactly on the transition where the game is
still playing, the tableau has just become empty and `bonusAwarded` is
still false — and there it adds `stock.length * STOCK_BONUS` and flips
`bonusAwarded` to true; once `bonusAwarded` is true (or the status is no
longer `playing`) re-evaluation never changes the score again. -/
theorem C4_bonus_once :
    (∀ s : GameState, s.status = .playing →
      s.tableau.all (fun sl => sl.card.isNone) = true → s.bonusAwarded = false →
      evaluateState s =
        { s with
            score := s.score + (s.stock.length * STOCK_BONUS : Nat),
            status := .won,
            bonusAwarded := true }) ∧
    (∀ s : GameState, s.bonusAwarded = true →
      (evaluateState s).score = s.score ∧ (evaluateState s).bonusAwarded = true) ∧
    (∀ s : GameState, s.status ≠ .playing → evaluateState s = s) ∧
    (∀ s : GameState, (evaluateState s).score ≠ s.score →
      s.status = .playing ∧ s.tableau.all (fun sl => sl.card.isNone) = true ∧
        s.bonusAwarded = false ∧ (evaluateState s).bonusAwarded = true ∧
        (evaluateState s).score = s.score + (s.stock.length * STOCK_BONUS : Nat)) := by
  refine ⟨?_, ?_, ?_, ?_⟩
  · intro s h1 h2 h3
    exact evaluateState_win h1 h2 h3
  · intro s hb
    refine ⟨evaluateState_score_eq ?_, evaluateState_bonus_stays hb⟩
    rintro ⟨_, _, hb2⟩
    rw [hb] at hb2
    cases hb2
  · intro s h
    exact evaluateState_not_playing h
  · intro s hne
    by_cases h : s.status = .playing ∧
        s.tableau.all (fun sl => sl.card.isNone) = true ∧ s.bonusAwarded = false
    · obtain ⟨h1, h2, h3⟩ := h
      have hw := evaluateState_win h1 h2 h3
      exact ⟨h1, h2, h3, by rw [hw], by rw [hw]⟩
    · exact absurd (evaluateState_score_eq h) hne

/-- Claim C4 witness: at a concrete empty-tableau state with 1 stock card,
the first evaluation adds the 200-point bonus; with `bonusAwarded`
already true, re-evaluation leaves the score alone; an already-won state
is returned unchanged; and a state whose score does change satisfies all
the transition conditions. -/
theorem C4_bonus_once_witness :
    (evaluateState { dealFrom "w" [] with stock := [⟨13, Suit.H⟩] } =
      { dealFrom "w" [] with
          stock := [⟨13, Suit.H⟩],
          score := (200 : Int),
          status := .won,
          bonusAwarded := true }) ∧
    ((evaluateState { dealFrom "w" [] with bonusAwarded := true }).score =
        ({ dealFrom "w" [] with bonusAwarded := true } : GameState).score ∧
      (evaluateState { dealFrom "w" [] with bonusAwarded := true }).bonusAwarded =
        true) ∧
    evaluateState { dealFrom "w" [] with status := .won } =
      { dealFrom "w" [] with status := .won } ∧
    ({ dealFrom "w" [] with stock := [⟨13, Suit.H⟩]} : GameState).status = .playing := by
  refine ⟨?_, ?_, ?_, by decide⟩
  · have h := C4_bonus_once.1 { dealFrom "w" [] with stock := [⟨13, Suit.H⟩] }
      rfl (by decide) rfl
    rw [h]
    decide
  · exact C4_bonus_once.2.1 _ rfl
  · exact C4_bonus_once.2.2.1 _ (by decide)

/-- Claim C3 (amended): if the status is `playing`, the stock is empty,
no position is exposed AND at least one tableau slot still holds a card,
then `evaluateState` sets the status to `lost` — regardless of powerup
inventory, active powerup or the waste top (none of those fields are
constrained).  The occupancy proviso is forced: with an all-empty tableau
(the only way a well-formed 28-slot tableau has zero exposed positions)
the win check fires first and the status becomes `won`. -/
theorem C3_empty_stock_no_exposed_lost (s : GameState)
    (h1 : s.status = .playing) (h2 : s.stock = [])
    (h3 : getExposedIds s.tableau = [])
    (h4 : ∃ slot ∈ s.tableau, slot.card.isSome = true) :
    (evaluateState s).status = .lost := by
  have hall : s.tableau.all (fun sl => sl.card.isNone) = false := by
    obtain ⟨slot, hmem, hsome⟩ := h4
    rcases Bool.eq_false_or_eq_true (s.tableau.all (fun sl => sl.card.isNone))
      with hb | hb
    · have := List.all_eq_true.1 hb slot hmem
      rw [Option.isNone_iff_eq_none] at this
      rw [this] at hsome
      cases hsome
    · exact hb
  rw [evaluateState, if_neg (by simp [h1]), if_neg (by simp [hall]),
    if_pos (by rw [h2]; rfl), if_pos (by rw [h3]; rfl)]

/-- Claim C3 counterexample: the claim as stated omits the occupancy
proviso.  At the concrete state dealt from an empty deck (status
`playing`, empty stock, empty tableau, hence zero exposed positions,
with a powerup in inventory), `evaluateState` sets status `won`, not
`lost`. -/
theorem C3_counterexample :
    ({ dealFrom "c3" [] with powerups := ⟨1, 0, 0⟩ } : GameState).status =
        .playing ∧
      ({ dealFrom "c3" [] with powerups := ⟨1, 0, 0⟩ } : GameState).stock = [] ∧
      getExposedIds
        ({ dealFrom "c3" [] with powerups := ⟨1, 0, 0⟩ } : GameState).tableau = [] ∧
      (evaluateState { dealFrom "c3" [] with powerups := ⟨1, 0, 0⟩ }).status =
        .won ∧
      (evaluateState { dealFrom "c3" [] with powerups := ⟨1, 0, 0⟩ }).status ≠
        .lost := by
  decide

/-- Claim C3 witness: a state with one covered card (its slot id points at
an occupied index), empty stock, full inventory and a non-adjacent waste
top is declared lost. -/
theorem C3_empty_stock_no_exposed_lost_witness :
    (evaluateState
      { dealFrom "w3" [] with
          tableau := [⟨3, 1, 3, some ⟨13, Suit.H⟩⟩],
          waste := [⟨13, Suit.D⟩],
          powerups := ⟨5, 5, 5⟩,
          activePowerup := some .wild }).status = .lost :=
  C3_empty_stock_no_exposed_lost _ rfl rfl (by decide)
    ⟨⟨3, 1, 3, some ⟨13, Suit.H⟩⟩, by decide⟩

/-- Claim C10: powerup plays do not require a non-empty waste.  With
status `playing`, an empty waste, an active powerup with at least one unit
in inventory, and an exposed occupied target, the click performs the
clear — the state changes and the target's former card becomes the waste
top — while on empty waste with no active powerup the click is a no-op. -/
theorem C10_powerup_click_empty_waste :
    (∀ (s : GameState) (k : Nat) (slot : Slot) (c : Card) (pk : Powerup),
      s.status = .playing → s.tableau[k]? = some slot → slot.card = some c →
      isExposed slot s.tableau = true → s.activePowerup = some pk →
      1 ≤ s.powerups.get pk → s.waste = [] →
      handleCardClick s k ≠ s ∧
        (handleCardClick s k).waste.getLast? = some c) ∧
    (∀ (s : GameState) (k : Nat), s.activePowerup = none → s.waste = [] →
      handleCardClick s k = s) := by
  constructor
  · intro s k slot c pk hst hget hcard hexp hap hinv hw
    have hwaste : ∀ ids, (evaluateState
        (applyClear s ids (some c) (some pk)).state).waste = [c] := by
      intro ids
      rw [evaluateState_waste, applyClear_waste, hw]
      rfl
    have hne : ∀ ids, evaluateState
        (applyClear s ids (some c) (some pk)).state ≠ s := by
      intro ids hcontra
      have h2 := congrArg GameState.waste hcontra
      rw [hwaste ids, hw] at h2
      cases h2
    cases pk with
    | wild =>
      have hz : s.powerups.wild ≠ 0 := by rw [Inventory.get] at hinv; omega
      have hclick : handleCardClick s k =
          evaluateState (applyClear s [k] (some c) (some .wild)).state := by
        rw [handleCardClick, if_neg (by simp [hst])]
        simp only [hget, hcard]
        rw [if_neg (by simp [hexp])]
        simp only [hap]
        rw [if_neg hz]
      rw [hclick]
      exact ⟨hne _, by rw [hwaste]; rfl⟩
    | bomb =>
      have hz : s.powerups.bomb ≠ 0 := by rw [Inventory.get] at hinv; omega
      have hclick : handleCardClick s k =
          evaluateState (applyClear s (bombCleared s k) (some c)
            (some .bomb)).state := by
        rw [handleCardClick, if_neg (by simp [hst])]
        simp only [hget, hcard]
        rw [if_neg (by simp [hexp])]
        simp only [hap]
        rw [if_neg hz]
      rw [hclick]
      exact ⟨hne _, by rw [hwaste]; rfl⟩
    | rainbow =>
      have hz : s.powerups.rainbow ≠ 0 := by rw [Inventory.get] at hinv; omega
      have hclick : handleCardClick s k =
          evaluateState (applyClear s (rainbowCleared s c.rank) (some c)
            (some .rainbow)).state := by
        rw [handleCardClick, if_neg (by simp [hst])]
        simp only [hget, hcard]
        rw [if_neg (by simp [hexp])]
        simp only [hap]
        rw [if_neg hz]
      rw [hclick]
      exact ⟨hne _, by rw [hwaste]; rfl⟩
  · intro s k hap hw
    rw [handleCardClick]
    split
    · rfl
    split
    · rfl
    rename_i slot hget
    split
    · rfl
    rename_i card hcard
    split
    · rfl
    split
    · split
      · rfl
      rename_i wt hwt
      rw [hw] at hwt
      cases hwt
    · rename_i heq
      rw [hap] at heq
      cases heq
    · rename_i heq
      rw [hap] at heq
      cases heq
    · rename_i heq
      rw [hap] at heq
      cases heq

/-- A concrete state for the C10 witness: empty waste and stock, a king on
slot 0 (exposed: slot 0 has no coverers), wild active with one unit. -/
def c10State : GameState :=
  { dealFrom "w" [] with
      tableau := LAYOUT.map (fun sl =>
        if sl.id == 0 then { sl with card := some ⟨13, Suit.H⟩ } else sl),
      activePowerup := some .wild,
      powerups := ⟨1, 0, 0⟩ }

/-- Claim C10 witness: at the concrete state the wild click on slot 0 is
not a no-op and leaves the king on top of the waste; at the plain state
dealt from an empty deck (no active powerup, empty waste) a click is a
no-op. -/
theorem C10_powerup_click_empty_waste_witness :
    (handleCardClick c10State 0 ≠ c10State ∧
      (handleCardClick c10State 0).waste.getLast? = some ⟨13, Suit.H⟩) ∧
    handleCardClick (dealFrom "w" []) 0 = dealFrom "w" [] := by
  constructor
  · exact C10_powerup_click_empty_waste.1 c10State 0
      ⟨0, 0, 4, some ⟨13, Suit.H⟩⟩ ⟨13, Suit.H⟩ .wild rfl (by decide) rfl
      (by decide) rfl (by decide) rfl
  · exact C10_powerup_click_empty_waste.2 (dealFrom "w" []) 0 rfl rfl

theorem reachable_runActions {s : GameState} (h : Reachable s) :
    ∀ acts : List Action, Reachable (runActions s acts)
  | [] => h
  | a :: rest => reachable_runActions (Reachable.step a h) rest

/-- Claim C1 (amended): the deal distributes exactly the canonical 52-card
deck across tableau + stock + waste + hold, and every reachable state
holds a *sub-multiset* of that deck — no card is ever duplicated or
created.  Exact conservation does not survive multi-card clears: a
rainbow clear pushes only the target's card onto the waste, so the other
cleared cards leave play permanently. -/
theorem C1_card_conservation :
    (∀ seed : String, cardMultiset (createGameState seed) = deckMultiset) ∧
    (∀ s : GameState, Reachable s → cardMultiset s ≤ deckMultiset) :=
  ⟨createGameState_cardMultiset, fun _ h => (reachable_inv h).2⟩

/-- Claim C1 witness: the invariant instantiated at the concrete deal for
seed `"candy"`. -/
theorem C1_card_conservation_witness :
    cardMultiset (createGameState "candy") = deckMultiset ∧
      cardMultiset (createGameState "candy") ≤ deckMultiset :=
  ⟨C1_card_conservation.1 "candy",
    C1_card_conservation.2 _ (Reachable.deal "candy")⟩

/-- A concrete play for seed `"0"`: two draws, ten consecutive clears
(combo 10, granting wild at 3, bomb at 6 and rainbow at 9), then a
rainbow play on slot 11 that clears two exposed cards of equal rank. -/
def c1Actions : List Action :=
  [.draw, .draw, .click 0, .draw, .click 4, .click 1, .click 2, .click 3,
   .click 5, .click 6, .click 8, .click 7, .click 16,
   .selectPowerup .rainbow, .click 11]

set_option maxRecDepth 10000 in
/-- Claim C1 counterexample: after the reachable play `c1Actions` from the
deal with seed `"0"`, only 51 of the 52 cards remain across tableau +
stock + waste + hold — the rainbow clear removed a non-target card from
play — so the multiset is no longer the canonical deck. -/
theorem C1_card_conservation_counterexample :
    Reachable (runActions (createGameState "0") c1Actions) ∧
      (cardMultiset (runActions (createGameState "0") c1Actions)).card = 51 ∧
      deckMultiset.card = 52 ∧
      cardMultiset (runActions (createGameState "0") c1Actions) ≠ deckMultiset := by
  refine ⟨reachable_runActions (Reachable.deal "0") c1Actions, ?_, by decide, ?_⟩
  · decide
  · intro h
    have hcard := congrArg Multiset.card h
    rw [show (cardMultiset (runActions (createGameState "0") c1Actions)).card = 51
        from by decide] at hcard
    rw [show deckMultiset.card = 52 from by decide] at hcard
    cases hcard


end Candy
